import Mathlib

/-
Verification of the service-builder code-generation engine.

The shallow embedding below models, field by field, the behaviour of the
generated builder code rather than the token streams themselves:

* `FieldAttributes` mirrors the normalized per-field configuration produced
  by `FieldAttributes::from_field` (src/service-builder-macro/src/field_attributes.rs).
  The `getter`, `setter`, `builder` (participates) and `required` flags and
  their parsing are taken from that file.  The `optional` flag and the
  `default` strategy are read by `expand_builder`
  (src/service-builder-macro/src/builder.rs, `attrs.optional`, `attrs.default`,
  `DefaultValue`) but the code that sets them is absent from the sources, so
  their parsing is modelled from the spec (see the doc comments below).

* `strictStrategy` / `defaultsStrategy` mirror the two per-field `if`/`else`
  chains of `expand_builder` that choose the expression emitted into `build()`
  and `build_with_defaults()` respectively.

* `runBuild` gives the runtime semantics of the generated finalization
  methods: the Rust code evaluates one expression per field of the struct
  literal, in declaration order, with `?` short-circuiting on the first
  `BuildError::MissingDependency(name)`.  The error is modelled as
  `Except.error name` (the external error module is out of scope and carries
  only the field name).  A finished record is modelled as its ordered list of
  `(field name, value)` pairs.  Field values live in an arbitrary type `α`;
  each field carries its own `Default::default()` value (`defaultVal`), its
  `None` value for `Option`-typed fields (`noneVal`) and the host evaluation
  of embedded default-expression text (`evalExpr`).  The builder state is a
  list of optional slots parallel to the field list; non-participating fields
  have no slot in the real builder, and the model never reads their slot.

* `simpleBuild` gives the runtime semantics of the `build()` generated by the
  older, simpler proc-macro variant in src/service-builder-macro/src/lib.rs,
  which unwraps every field with `ok_or(MissingDependency)?` in declaration
  order.

* `expand_builder` / `emissionOf` model the synthesis pass itself: which
  builder slots, chainable methods, field strategies and accessor methods are
  emitted, and which input shapes abort the pass with a `syn::Error`.
-/

namespace ServiceBuilder

/-- Default strategy attached to a field, mirroring the `DefaultValue` enum
consumed by `expand_builder` (`DefaultValue::Default` and
`DefaultValue::Expression(String)`). -/
inductive DefaultValue where
  | default : DefaultValue
  | expression : String → DefaultValue
deriving DecidableEq

/-- Normalized per-field configuration.  Fields `getter`, `setter`, `builder`
(participates) and `required` are the struct fields of `FieldAttributes` in
src/service-builder-macro/src/field_attributes.rs.  Fields `optional` and
`default` are read by `expand_builder` (`attrs.optional`, `attrs.default`)
but their declaration is absent from the sources; they are modelled from the
spec (§3 FieldSpec: `required`, `default_strategy`). -/
structure FieldAttributes where
  getter : Bool
  setter : Bool
  builder : Bool
  required : Bool
  optional : Bool
  default : Option DefaultValue
deriving DecidableEq

/-- One parsed item of a field-level `#[builder(...)]` attribute list, as
recognized by the `parse_nested_meta` closure of
`FieldAttributes::from_field`: `getter`, `setter`, `skip`, `optional` from
the source, plus the bare `default` and `default = "<expr>"` forms consumed
by `expand_builder`, and `other` for any unrecognized key (silently
accepted by the closure, which returns `Ok(())` for it). -/
inductive MetaKey where
  | getter : MetaKey
  | setter : MetaKey
  | skip : MetaKey
  | optional : MetaKey
  | defaultBare : MetaKey
  | defaultExpr : String → MetaKey
  | other : String → MetaKey
deriving DecidableEq

/-- One entry of a struct-level `#[builder(field(getter, setter), ...)]`
attribute, mirroring `FieldConfig` in field_attributes.rs. -/
structure FieldConfig where
  name : String
  getter : Bool
  setter : Bool
deriving DecidableEq

/-- Effect of one recognized field-level key on the accumulated attributes.
The `getter`/`setter`/`skip`/`optional` cases mirror the `parse_nested_meta`
closure in `FieldAttributes::from_field`; `optional` also records the
explicit mark read back by `expand_builder` as `attrs.optional`.
The two `default` cases are modelled from the spec: bare `default` sets
`default_strategy = TraitDefault` and `default = "<expr>"` sets
`default_strategy = Expression(text)`; both clear `required`, maintaining
the spec §3 invariant that a field is required only when no default strategy
is set and it was not explicitly marked optional (the repository's own tests
exercise bare-`default` fields as non-required in the strict `build()`).
Unrecognized keys are ignored. -/
def applyMetaKey (attrs : FieldAttributes) (k : MetaKey) : FieldAttributes :=
  match k with
  | MetaKey.getter => { attrs with getter := true }
  | MetaKey.setter => { attrs with setter := true }
  | MetaKey.skip => { attrs with builder := false }
  | MetaKey.optional => { attrs with required := false, optional := true }
  | MetaKey.defaultBare =>
      { attrs with default := some DefaultValue.default, required := false }
  | MetaKey.defaultExpr t =>
      { attrs with default := some (DefaultValue.expression t), required := false }
  | MetaKey.other _ => attrs

/-- Effect of one field-level `#[builder(...)]` attribute.  A parse failure
of the nested meta list is discarded by the source
(`let _ = attr.parse_nested_meta(...)`), leaving the attributes unchanged;
a successful parse applies each recognized key in order. -/
def applyFieldAttr (attrs : FieldAttributes) (a : Except Unit (List MetaKey)) :
    FieldAttributes :=
  match a with
  | Except.error _ => attrs
  | Except.ok ks => ks.foldl applyMetaKey attrs

/-- Fold of all field-level attributes, field-level defaults first
(`builder: true, required: true` for backward compatibility). -/
def applyFieldAttrs (fieldAttrs : List (Except Unit (List MetaKey)))
    (attrs : FieldAttributes) : FieldAttributes :=
  fieldAttrs.foldl applyFieldAttr attrs

/-- Effect of one struct-level entry on a field's attributes: when the entry
names this field, OR the requested getter/setter grants into the existing
flags (`attrs.getter |= config.getter; attrs.setter |= config.setter`);
entries naming other fields are ignored. -/
def applyFieldConfig (fieldName : String) (attrs : FieldAttributes)
    (c : FieldConfig) : FieldAttributes :=
  if c.name == fieldName then
    { attrs with getter := attrs.getter || c.getter,
                 setter := attrs.setter || c.setter }
  else attrs

/-- Effect of one struct-level `#[builder(...)]` attribute.  A parse failure
is skipped by the source (`if let Ok(meta) = attr.parse_args_with(...)`);
a successful parse applies every entry in order. -/
def applyStructAttr (fieldName : String) (attrs : FieldAttributes)
    (a : Except Unit (List FieldConfig)) : FieldAttributes :=
  match a with
  | Except.error _ => attrs
  | Except.ok cs => cs.foldl (applyFieldConfig fieldName) attrs

/-- The struct-level merge pass: applied after field-level parsing completes. -/
def applyStructAttrs (fieldName : String)
    (structAttrs : List (Except Unit (List FieldConfig)))
    (attrs : FieldAttributes) : FieldAttributes :=
  structAttrs.foldl (applyStructAttr fieldName) attrs

/-- Initial per-field state before any annotation is read:
`builder: true, required: true` for backward compatibility, everything else
unset (`FieldAttributes::from_field`). -/
def initialAttrs : FieldAttributes :=
  ⟨false, false, true, true, false, none⟩

/-- `FieldAttributes::from_field`: start from the backward-compatible
defaults, process field-level attributes first, then struct-level
attributes. -/
def FieldAttributes.fromField (fieldName : String)
    (structAttrs : List (Except Unit (List FieldConfig)))
    (fieldAttrs : List (Except Unit (List MetaKey))) : FieldAttributes :=
  applyStructAttrs fieldName structAttrs (applyFieldAttrs fieldAttrs initialAttrs)

/-- Whether a struct-level attribute list grants `getter` to the named field. -/
def structGrantGetter (fieldName : String)
    (structAttrs : List (Except Unit (List FieldConfig))) : Bool :=
  structAttrs.any (fun a =>
    match a with
    | Except.error _ => false
    | Except.ok cs => cs.any (fun c => c.name == fieldName && c.getter))

/-- Whether a struct-level attribute list grants `setter` to the named field. -/
def structGrantSetter (fieldName : String)
    (structAttrs : List (Except Unit (List FieldConfig))) : Bool :=
  structAttrs.any (fun a =>
    match a with
    | Except.error _ => false
    | Except.ok cs => cs.any (fun c => c.name == fieldName && c.setter))

/-- The reachability invariant maintained by attribute parsing: the
`required` flag holds exactly when no default strategy is set and the field
was not explicitly marked optional (spec §3). -/
def FieldAttributes.parsedInv (a : FieldAttributes) : Bool :=
  a.required == (a.default.isNone && !a.optional)

/-- The four per-field emission strategies of the finalization methods, plus
the strategy applied to non-participating (`skip`) fields. -/
inductive Strategy where
  | require : Strategy
  | traitDefault : Strategy
  | expression : String → Strategy
  | optionalEmpty : Strategy
  | skipDefault : Strategy
deriving DecidableEq

/-- Strategy chosen by `expand_builder` for a field in the strict `build()`
method: non-participating fields are filled with `Default::default()`;
otherwise `if attrs.required` require-or-error, `else if` a default strategy
is set use it, `else if attrs.optional` treat absence as `None`, `else`
require-or-error. -/
def strictStrategy (a : FieldAttributes) : Strategy :=
  if a.builder then
    if a.required then Strategy.require
    else
      match a.default with
      | some DefaultValue.default => Strategy.traitDefault
      | some (DefaultValue.expression e) => Strategy.expression e
      | none => if a.optional then Strategy.optionalEmpty else Strategy.require
  else Strategy.skipDefault

/-- Strategy chosen by `expand_builder` for a field in
`build_with_defaults()`: non-participating fields are filled with
`Default::default()`; otherwise `if` a default strategy is set use it,
`else if attrs.optional` treat absence as `None`, `else` require-or-error. -/
def defaultsStrategy (a : FieldAttributes) : Strategy :=
  if a.builder then
    match a.default with
    | some DefaultValue.default => Strategy.traitDefault
    | some (DefaultValue.expression e) => Strategy.expression e
    | none => if a.optional then Strategy.optionalEmpty else Strategy.require
  else Strategy.skipDefault

/-- Runtime model of one field of an annotated record: its name, normalized
attributes, the value of `Default::default()` at its type, the value `None`
at its type (meaningful for `Option`-typed fields), and the host evaluation
of embedded default-expression source text at its type. -/
structure FieldModel (α : Type) where
  name : String
  attrs : FieldAttributes
  defaultVal : α
  noneVal : α
  evalExpr : String → α

/-- Runtime semantics of the expression emitted for one field:
`self.f.ok_or_else(|| MissingDependency("f"))?`, `self.f.unwrap_or_default()`,
`self.f.unwrap_or_else(|| expr)`, `self.f.unwrap_or(None)`, or
`Default::default()` for skipped fields. -/
def evalStrategy {α : Type} (f : FieldModel α) (s : Strategy)
    (slot : Option α) : Except String α :=
  match s with
  | Strategy.require =>
      match slot with
      | some v => Except.ok v
      | none => Except.error f.name
  | Strategy.traitDefault => Except.ok (slot.getD f.defaultVal)
  | Strategy.expression e => Except.ok (slot.getD (f.evalExpr e))
  | Strategy.optionalEmpty => Except.ok (slot.getD f.noneVal)
  | Strategy.skipDefault => Except.ok f.defaultVal

/-- Runtime semantics of a generated finalization method: evaluate each
field's emitted expression in declaration order, short-circuiting on the
first `MissingDependency`, and otherwise produce the record as the ordered
list of (field name, value) pairs. -/
def runBuild {α : Type} (strat : FieldAttributes → Strategy) :
    List (FieldModel α × Option α) → Except String (List (String × α))
  | [] => Except.ok []
  | (f, slot) :: rest =>
    match evalStrategy f (strat f.attrs) slot with
    | Except.error e => Except.error e
    | Except.ok v =>
      match runBuild strat rest with
      | Except.error e => Except.error e
      | Except.ok tail => Except.ok ((f.name, v) :: tail)

/-- The generated strict `build()` on a builder state (one optional slot per
field, in declaration order). -/
def build {α : Type} (fields : List (FieldModel α)) (state : List (Option α)) :
    Except String (List (String × α)) :=
  runBuild strictStrategy (fields.zip state)

/-- The generated `build_with_defaults()` on a builder state. -/
def build_with_defaults {α : Type} (fields : List (FieldModel α))
    (state : List (Option α)) : Except String (List (String × α)) :=
  runBuild defaultsStrategy (fields.zip state)

/-- Runtime semantics of the `build()` generated by the simple proc-macro
variant in src/service-builder-macro/src/lib.rs: every field is unwrapped
with `ok_or_else(|| MissingDependency(name))?` in declaration order,
ignoring all attributes. -/
def simpleBuild {α : Type} :
    List (FieldModel α × Option α) → Except String (List (String × α))
  | [] => Except.ok []
  | (f, slot) :: rest =>
    match slot with
    | none => Except.error f.name
    | some v =>
      match simpleBuild rest with
      | Except.error e => Except.error e
      | Except.ok tail => Except.ok ((f.name, v) :: tail)

/-- The names of the participating required fields whose slot is absent, in
declaration order; the generated finalization methods report the head of
this list. -/
def missingRequired {α : Type} (fields : List (FieldModel α))
    (state : List (Option α)) : List String :=
  ((fields.zip state).filter
      (fun p => p.1.attrs.builder && p.1.attrs.required && p.2.isNone)).map
    (fun p => p.1.name)

/-- Shape of the code emitted by one successful synthesis pass: the builder
slots, the chainable builder methods, the per-field strategies of the two
finalization methods, and the accessor methods on the record type. -/
structure Emission where
  builderSlots : List String
  builderMethods : List String
  strictStrategies : List (String × Strategy)
  defaultsStrategies : List (String × Strategy)
  getters : List String
  setters : List String
deriving DecidableEq

/-- The emission decisions of `expand_builder` for a list of named fields
with resolved attributes: a builder slot and a chainable method per
participating field, a strategy pair per field, and accessor methods per
`getter`/`setter` flag (generated independently of participation). -/
def emissionOf (fas : List (String × FieldAttributes)) : Emission :=
  { builderSlots := (fas.filter (fun p => p.2.builder)).map (fun p => p.1)
    builderMethods := (fas.filter (fun p => p.2.builder)).map (fun p => p.1)
    strictStrategies := fas.map (fun p => (p.1, strictStrategy p.2))
    defaultsStrategies := fas.map (fun p => (p.1, defaultsStrategy p.2))
    getters := (fas.filter (fun p => p.2.getter)).map (fun p => p.1)
    setters := (fas.filter (fun p => p.2.setter)).map (fun p => p.1) }

/-- One raw field of the input declaration: its name and its raw attribute
list (each attribute either a parsed key list or a parse failure). -/
structure RawField where
  name : String
  attrs : List (Except Unit (List MetaKey))

/-- Shape of the input declaration handed to `expand_builder`: a struct with
named fields, a struct with unnamed or unit fields, or a non-struct item. -/
inductive InputData where
  | structNamed : List RawField → InputData
  | structUnnamed : InputData
  | notStruct : InputData

/-- The synthesis pass of `expand_builder`: named-field structs always emit
(field attributes resolved through `FieldAttributes::from_field`), while
unsupported shapes abort with a `syn::Error`. -/
def expand_builder (structAttrs : List (Except Unit (List FieldConfig))) :
    InputData → Except String Emission
  | InputData.structNamed fields =>
      Except.ok (emissionOf (fields.map
        (fun f => (f.name, FieldAttributes.fromField f.name structAttrs f.attrs))))
  | InputData.structUnnamed => Except.error "Only named fields are supported"
  | InputData.notStruct => Except.error "Only structs are supported"

/-- Under the parsing invariant the two finalization methods choose the same
strategy for every field: a `required` field has no default and is not
optional, so the defaulting chain also falls through to require-or-error. -/
lemma strategy_eq_of_inv (a : FieldAttributes) (h : a.parsedInv = true) :
    strictStrategy a = defaultsStrategy a := by
  obtain ⟨g, s, b, r, o, d⟩ := a
  simp only [FieldAttributes.parsedInv] at h
  cases b <;> cases r <;> cases o <;> rcases d with _ | (_ | t) <;>
    simp_all [strictStrategy, defaultsStrategy]

/-- Under the parsing invariant, the strict method resolves a field to
require-or-error exactly when the field participates and is required. -/
lemma strict_require_iff (a : FieldAttributes) (h : a.parsedInv = true) :
    decide (strictStrategy a = Strategy.require) =
      (a.builder && a.required) := by
  obtain ⟨g, s, b, r, o, d⟩ := a
  simp only [FieldAttributes.parsedInv] at h
  cases b <;> cases r <;> cases o <;> rcases d with _ | (_ | t) <;>
    simp_all [strictStrategy]

/-- Under the parsing invariant, the defaulting method also resolves a field
to require-or-error exactly when the field participates and is required. -/
lemma defaults_require_iff (a : FieldAttributes) (h : a.parsedInv = true) :
    decide (defaultsStrategy a = Strategy.require) =
      (a.builder && a.required) := by
  rw [← strategy_eq_of_inv a h]
  exact strict_require_iff a h

/-- A field whose strategy is not require-or-error, or whose slot is filled,
always evaluates to a value. -/
lemma evalStrategy_ok {α : Type} (f : FieldModel α) (s : Strategy)
    (slot : Option α) (h : ¬(s = Strategy.require ∧ slot = none)) :
    ∃ v, evalStrategy f s slot = Except.ok v := by
  cases s with
  | require =>
    cases slot with
    | none => exact absurd ⟨rfl, rfl⟩ h
    | some v => exact ⟨v, rfl⟩
  | traitDefault => exact ⟨slot.getD f.defaultVal, rfl⟩
  | expression e => exact ⟨slot.getD (f.evalExpr e), rfl⟩
  | optionalEmpty => exact ⟨slot.getD f.noneVal, rfl⟩
  | skipDefault => exact ⟨f.defaultVal, rfl⟩

/-- A finalization method built from a strategy assignment reports the first
field, in declaration order, whose strategy is require-or-error and whose
slot is absent. -/
lemma runBuild_error_first {α : Type} (strat : FieldAttributes → Strategy) :
    ∀ (l : List (FieldModel α × Option α)) (n : String) (ns : List String),
      ((l.filter (fun p =>
          decide (strat p.1.attrs = Strategy.require) && p.2.isNone)).map
        (fun p => p.1.name)) = n :: ns →
      runBuild strat l = Except.error n := by
  intro l
  induction l with
  | nil => intro n ns h; simp [List.filter] at h
  | cons p rest ih =>
    intro n ns h
    obtain ⟨f, slot⟩ := p
    by_cases hc : strat f.attrs = Strategy.require ∧ slot = none
    · obtain ⟨h1, h2⟩ := hc
      subst h2
      rw [List.filter_cons_of_pos (by simp [h1])] at h
      simp only [List.map_cons, List.cons.injEq] at h
      rw [← h.1]
      simp [runBuild, evalStrategy, h1]
    · have hpred : (decide (strat f.attrs = Strategy.require) &&
          (slot : Option α).isNone) = false := by
        rcases slot with _ | v
        · simp only [Option.isNone_none, Bool.and_true, decide_eq_false_iff_not]
          intro hr
          exact hc ⟨hr, rfl⟩
        · simp
      rw [List.filter_cons_of_neg (by simp [hpred])] at h
      obtain ⟨v, hv⟩ := evalStrategy_ok f (strat f.attrs) slot hc
      simp [runBuild, hv, ih n ns h]

/-- A finalization method built from a strategy assignment succeeds when no
field both resolves to require-or-error and has an absent slot. -/
lemma runBuild_ok {α : Type} (strat : FieldAttributes → Strategy) :
    ∀ (l : List (FieldModel α × Option α)),
      (∀ p ∈ l, ¬(strat p.1.attrs = Strategy.require ∧ p.2 = none)) →
      ∃ vs, runBuild strat l = Except.ok vs := by
  intro l
  induction l with
  | nil => exact fun _ => ⟨[], rfl⟩
  | cons p rest ih =>
    intro h
    obtain ⟨f, slot⟩ := p
    obtain ⟨v, hv⟩ :=
      evalStrategy_ok f (strat f.attrs) slot (h (f, slot) (List.mem_cons_self _ _))
    obtain ⟨vs, hvs⟩ := ih (fun q hq => h q (List.mem_cons_of_mem _ hq))
    exact ⟨(f.name, v) :: vs, by simp [runBuild, hv, hvs]⟩

/-- Two strategy assignments that agree on every field of a list build the
same result. -/
lemma runBuild_congr {α : Type} (strat₁ strat₂ : FieldAttributes → Strategy) :
    ∀ (l : List (FieldModel α × Option α)),
      (∀ p ∈ l, strat₁ p.1.attrs = strat₂ p.1.attrs) →
      runBuild strat₁ l = runBuild strat₂ l := by
  intro l
  induction l with
  | nil => exact fun _ => rfl
  | cons p rest ih =>
    intro h
    obtain ⟨f, slot⟩ := p
    have hhead := h (f, slot) (List.mem_cons_self _ _)
    have htail := ih (fun q hq => h q (List.mem_cons_of_mem _ hq))
    simp [runBuild, hhead, htail]

/-- Members of a zipped list project to members of the left list. -/
lemma zip_mem_left {α β : Type} :
    ∀ (l₁ : List α) (l₂ : List β) (p : α × β), p ∈ l₁.zip l₂ → p.1 ∈ l₁ := by
  intro l₁
  induction l₁ with
  | nil => intro l₂ p h; simp [List.zip] at h
  | cons a l₁ ih =>
    intro l₂ p h
    rcases l₂ with _ | ⟨b, l₂⟩
    · simp [List.zip] at h
    · rcases List.mem_cons.mp h with h | h
      · subst h; exact List.mem_cons_self _ _
      · exact List.mem_cons_of_mem _ (ih l₂ p h)

/-- Two boolean predicates that agree on every member filter a list
identically. -/
lemma filter_congr_mem {α : Type} (p q : α → Bool) :
    ∀ (l : List α), (∀ a ∈ l, p a = q a) → l.filter p = l.filter q := by
  intro l
  induction l with
  | nil => exact fun _ => rfl
  | cons a l ih =>
    intro h
    have ha := h a (List.mem_cons_self _ _)
    have hl := ih (fun b hb => h b (List.mem_cons_of_mem _ hb))
    simp [List.filter, ha, hl]

/-- When every field of a list resolves to require-or-error in the strict
method, the richer variant's `build()` agrees with the simple variant's
`build()`. -/
lemma simpleBuild_eq_runBuild {α : Type} :
    ∀ (l : List (FieldModel α × Option α)),
      (∀ p ∈ l, strictStrategy p.1.attrs = Strategy.require) →
      simpleBuild l = runBuild strictStrategy l := by
  intro l
  induction l with
  | nil => exact fun _ => rfl
  | cons p rest ih =>
    intro h
    obtain ⟨f, slot⟩ := p
    have hhead := h (f, slot) (List.mem_cons_self _ _)
    have htail := ih (fun q hq => h q (List.mem_cons_of_mem _ hq))
    rcases slot with _ | v <;> simp [simpleBuild, runBuild, evalStrategy, hhead, htail]

/-- Folding the entries of one struct-level list ORs the matching getter
grants into the field's getter flag. -/
lemma foldl_fieldConfig_getter (n : String) :
    ∀ (cs : List FieldConfig) (a : FieldAttributes),
      (cs.foldl (applyFieldConfig n) a).getter =
        (a.getter || cs.any (fun c => c.name == n && c.getter)) := by
  intro cs
  induction cs with
  | nil => intro a; simp
  | cons c cs ih =>
    intro a
    rw [List.foldl_cons, ih]
    simp only [List.any_cons]
    unfold applyFieldConfig
    by_cases hc : (c.name == n) = true
    · simp [hc, Bool.or_assoc]
    · simp [Bool.of_not_eq_true hc]

/-- Folding the entries of one struct-level list ORs the matching setter
grants into the field's setter flag. -/
lemma foldl_fieldConfig_setter (n : String) :
    ∀ (cs : List FieldConfig) (a : FieldAttributes),
      (cs.foldl (applyFieldConfig n) a).setter =
        (a.setter || cs.any (fun c => c.name == n && c.setter)) := by
  intro cs
  induction cs with
  | nil => intro a; simp
  | cons c cs ih =>
    intro a
    rw [List.foldl_cons, ih]
    simp only [List.any_cons]
    unfold applyFieldConfig
    by_cases hc : (c.name == n) = true
    · simp [hc, Bool.or_assoc]
    · simp [Bool.of_not_eq_true hc]

/-- Folding the entries of one struct-level list leaves every per-field
setting other than the getter/setter flags untouched. -/
lemma foldl_fieldConfig_rest (n : String) :
    ∀ (cs : List FieldConfig) (a : FieldAttributes),
      (cs.foldl (applyFieldConfig n) a).builder = a.builder ∧
      (cs.foldl (applyFieldConfig n) a).required = a.required ∧
      (cs.foldl (applyFieldConfig n) a).optional = a.optional ∧
      (cs.foldl (applyFieldConfig n) a).default = a.default := by
  intro cs
  induction cs with
  | nil => intro a; exact ⟨rfl, rfl, rfl, rfl⟩
  | cons c cs ih =>
    intro a
    rw [List.foldl_cons]
    have := ih (applyFieldConfig n a c)
    unfold applyFieldConfig at this ⊢
    by_cases hc : (c.name == n) = true
    · simpa [hc] using this
    · simpa [Bool.of_not_eq_true hc] using this

/-- The struct-level merge pass ORs the struct-level getter grants into the
field-level getter flag. -/
lemma applyStructAttrs_getter (n : String) :
    ∀ (sas : List (Except Unit (List FieldConfig))) (a : FieldAttributes),
      (applyStructAttrs n sas a).getter = (a.getter || structGrantGetter n sas) := by
  intro sas
  induction sas with
  | nil => intro a; simp [applyStructAttrs, structGrantGetter]
  | cons sa sas ih =>
    intro a
    unfold applyStructAttrs at ih ⊢
    rw [List.foldl_cons, ih]
    unfold structGrantGetter at ih ⊢
    simp only [List.any_cons]
    rcases sa with _ | cs
    · rfl
    · simp [applyStructAttr, foldl_fieldConfig_getter, Bool.or_assoc]

/-- The struct-level merge pass ORs the struct-level setter grants into the
field-level setter flag. -/
lemma applyStructAttrs_setter (n : String) :
    ∀ (sas : List (Except Unit (List FieldConfig))) (a : FieldAttributes),
      (applyStructAttrs n sas a).setter = (a.setter || structGrantSetter n sas) := by
  intro sas
  induction sas with
  | nil => intro a; simp [applyStructAttrs, structGrantSetter]
  | cons sa sas ih =>
    intro a
    unfold applyStructAttrs at ih ⊢
    rw [List.foldl_cons, ih]
    unfold structGrantSetter at ih ⊢
    simp only [List.any_cons]
    rcases sa with _ | cs
    · rfl
    · simp [applyStructAttr, foldl_fieldConfig_setter, Bool.or_assoc]

/-- The struct-level merge pass leaves participation, requiredness, the
optional mark and the default strategy untouched. -/
lemma applyStructAttrs_rest (n : String) :
    ∀ (sas : List (Except Unit (List FieldConfig))) (a : FieldAttributes),
      (applyStructAttrs n sas a).builder = a.builder ∧
      (applyStructAttrs n sas a).required = a.required ∧
      (applyStructAttrs n sas a).optional = a.optional ∧
      (applyStructAttrs n sas a).default = a.default := by
  intro sas
  induction sas with
  | nil => intro a; exact ⟨rfl, rfl, rfl, rfl⟩
  | cons sa sas ih =>
    intro a
    unfold applyStructAttrs at ih ⊢
    rw [List.foldl_cons]
    have h2 := ih (applyStructAttr n a sa)
    rcases sa with _ | cs
    · exact h2
    · have h1 := foldl_fieldConfig_rest n cs a
      simp only [applyStructAttr] at h2
      exact ⟨h1.1 ▸ h2.1, h1.2.1 ▸ h2.2.1, h1.2.2.1 ▸ h2.2.2.1, h1.2.2.2 ▸ h2.2.2.2⟩

/-- Applying one recognized field-level key preserves the parsing
invariant. -/
lemma applyMetaKey_inv (a : FieldAttributes) (k : MetaKey)
    (h : a.parsedInv = true) : (applyMetaKey a k).parsedInv = true := by
  obtain ⟨g, s, b, r, o, d⟩ := a
  cases k <;> simp_all [applyMetaKey, FieldAttributes.parsedInv]

/-- Field-level attribute processing preserves the parsing invariant. -/
lemma applyFieldAttrs_inv :
    ∀ (fas : List (Except Unit (List MetaKey))) (a : FieldAttributes),
      a.parsedInv = true → (applyFieldAttrs fas a).parsedInv = true := by
  have hkeys : ∀ (ks : List MetaKey) (a : FieldAttributes),
      a.parsedInv = true → (ks.foldl applyMetaKey a).parsedInv = true := by
    intro ks
    induction ks with
    | nil => exact fun a h => h
    | cons k ks ih =>
      intro a h
      rw [List.foldl_cons]
      exact ih _ (applyMetaKey_inv a k h)
  intro fas
  induction fas with
  | nil => exact fun a h => h
  | cons fa fas ih =>
    intro a h
    unfold applyFieldAttrs at ih ⊢
    rw [List.foldl_cons]
    apply ih
    rcases fa with _ | ks
    · exact h
    · exact hkeys ks a h

/-- Every attribute configuration produced by `FieldAttributes::from_field`
satisfies the parsing invariant. -/
lemma fromField_inv (n : String)
    (sas : List (Except Unit (List FieldConfig)))
    (fas : List (Except Unit (List MetaKey))) :
    (FieldAttributes.fromField n sas fas).parsedInv = true := by
  have h1 : (applyFieldAttrs fas initialAttrs).parsedInv = true :=
    applyFieldAttrs_inv fas initialAttrs rfl
  have h2 := applyStructAttrs_rest n sas (applyFieldAttrs fas initialAttrs)
  unfold FieldAttributes.fromField
  unfold FieldAttributes.parsedInv at h1 ⊢
  rw [h2.2.1, h2.2.2.1, h2.2.2.2]
  exact h1

/-- A field whose attributes satisfy the parsing invariant and that is
explicitly optional or carries a default strategy is never resolved to
require-or-error, by either finalization method. -/
lemma not_require_of_defaulted (a : FieldAttributes) (h : a.parsedInv = true)
    (hd : a.optional = true ∨ a.default.isSome = true) :
    strictStrategy a ≠ Strategy.require ∧
    defaultsStrategy a ≠ Strategy.require := by
  obtain ⟨g, s, b, r, o, d⟩ := a
  simp only [FieldAttributes.parsedInv] at h
  cases b <;> cases r <;> cases o <;> rcases d with _ | (_ | t) <;>
    simp_all [strictStrategy, defaultsStrategy]

/-- C1: for every record whose per-field attributes arise from annotation
parsing, if at least one participating required field has an absent slot,
then both `build()` and `build_with_defaults()` return
`MissingDependency` naming the first such field in declaration order, and
no record is produced (the result is the error, not a success). -/
theorem claim_C1_first_missing_required {α : Type}
    (fields : List (FieldModel α)) (state : List (Option α))
    (hinv : ∀ f ∈ fields, f.attrs.parsedInv = true)
    (n : String) (ns : List String)
    (hmiss : missingRequired fields state = n :: ns) :
    build fields state = Except.error n ∧
    build_with_defaults fields state = Except.error n := by
  have hmem : ∀ p ∈ fields.zip state,
      (p : FieldModel α × Option α).1.attrs.parsedInv = true :=
    fun p hp => hinv p.1 (zip_mem_left fields state p hp)
  have hstrict : ((fields.zip state).filter (fun p =>
      decide (strictStrategy p.1.attrs = Strategy.require) && p.2.isNone)).map
        (fun p => p.1.name) = n :: ns := by
    rw [filter_congr_mem _ _ _
      (fun p hp => by rw [strict_require_iff _ (hmem p hp)])]
    exact hmiss
  have hdef : ((fields.zip state).filter (fun p =>
      decide (defaultsStrategy p.1.attrs = Strategy.require) && p.2.isNone)).map
        (fun p => p.1.name) = n :: ns := by
    rw [filter_congr_mem _ _ _
      (fun p hp => by rw [defaults_require_iff _ (hmem p hp)])]
    exact hmiss
  exact ⟨runBuild_error_first strictStrategy _ n ns hstrict,
    runBuild_error_first defaultsStrategy _ n ns hdef⟩

/-- C1 witness: a record with two required fields `a`, `b`, both left
absent; both finalization methods report `a`, the first in declaration
order. -/
theorem claim_C1_witness :
    missingRequired
        [(⟨"a", ⟨false, false, true, true, false, none⟩, 0, 0, fun _ => 0⟩ :
            FieldModel Nat),
         ⟨"b", ⟨false, false, true, true, false, none⟩, 0, 0, fun _ => 0⟩]
        [none, none] = ["a", "b"] ∧
    build
        [(⟨"a", ⟨false, false, true, true, false, none⟩, 0, 0, fun _ => 0⟩ :
            FieldModel Nat),
         ⟨"b", ⟨false, false, true, true, false, none⟩, 0, 0, fun _ => 0⟩]
        [none, none] = Except.error "a" ∧
    build_with_defaults
        [(⟨"a", ⟨false, false, true, true, false, none⟩, 0, 0, fun _ => 0⟩ :
            FieldModel Nat),
         ⟨"b", ⟨false, false, true, true, false, none⟩, 0, 0, fun _ => 0⟩]
        [none, none] = Except.error "a" := by
  have h := claim_C1_first_missing_required
    [(⟨"a", ⟨false, false, true, true, false, none⟩, 0, 0, fun _ => 0⟩ :
        FieldModel Nat),
     ⟨"b", ⟨false, false, true, true, false, none⟩, 0, 0, fun _ => 0⟩]
    [none, none] (by decide) "a" ["b"] rfl
  exact ⟨rfl, h.1, h.2⟩

/-- C2: for every record whose per-field attributes arise from annotation
parsing and whose every field is explicitly optional or carries a default
strategy, both `build()` and `build_with_defaults()` succeed on a fresh
builder with no fields set. -/
theorem claim_C2_all_defaulted_succeeds {α : Type}
    (fields : List (FieldModel α))
    (hinv : ∀ f ∈ fields, f.attrs.parsedInv = true)
    (hdef : ∀ f ∈ fields, f.attrs.optional = true ∨ f.attrs.default.isSome = true) :
    (∃ vs, build fields (List.replicate fields.length none) = Except.ok vs) ∧
    (∃ vs, build_with_defaults fields (List.replicate fields.length none) =
      Except.ok vs) := by
  have hs : ∀ p ∈ fields.zip (List.replicate fields.length (none : Option α)),
      ¬(strictStrategy (p : FieldModel α × Option α).1.attrs = Strategy.require ∧
        p.2 = none) := by
    intro p hp hcon
    exact (not_require_of_defaulted p.1.attrs
      (hinv p.1 (zip_mem_left _ _ p hp))
      (hdef p.1 (zip_mem_left _ _ p hp))).1 hcon.1
  have hd : ∀ p ∈ fields.zip (List.replicate fields.length (none : Option α)),
      ¬(defaultsStrategy (p : FieldModel α × Option α).1.attrs = Strategy.require ∧
        p.2 = none) := by
    intro p hp hcon
    exact (not_require_of_defaulted p.1.attrs
      (hinv p.1 (zip_mem_left _ _ p hp))
      (hdef p.1 (zip_mem_left _ _ p hp))).2 hcon.1
  exact ⟨runBuild_ok strictStrategy _ hs, runBuild_ok defaultsStrategy _ hd⟩

/-- C2 witness: a record with an explicitly optional field and a
bare-default field; both finalization methods succeed with no fields set. -/
theorem claim_C2_witness :
    (∀ f ∈ [(⟨"a", ⟨false, false, true, false, true, none⟩, 0, 0, fun _ => 0⟩ :
          FieldModel Nat),
        ⟨"b", ⟨false, false, true, false, false, some DefaultValue.default⟩, 5, 0,
          fun _ => 0⟩], f.attrs.parsedInv = true) ∧
    (∀ f ∈ [(⟨"a", ⟨false, false, true, false, true, none⟩, 0, 0, fun _ => 0⟩ :
          FieldModel Nat),
        ⟨"b", ⟨false, false, true, false, false, some DefaultValue.default⟩, 5, 0,
          fun _ => 0⟩],
      f.attrs.optional = true ∨ f.attrs.default.isSome = true) ∧
    (∃ vs, build
        [(⟨"a", ⟨false, false, true, false, true, none⟩, 0, 0, fun _ => 0⟩ :
            FieldModel Nat),
         ⟨"b", ⟨false, false, true, false, false, some DefaultValue.default⟩, 5, 0,
            fun _ => 0⟩]
        (List.replicate
          (List.length
            [(⟨"a", ⟨false, false, true, false, true, none⟩, 0, 0, fun _ => 0⟩ :
                FieldModel Nat),
             ⟨"b", ⟨false, false, true, false, false, some DefaultValue.default⟩, 5,
                0, fun _ => 0⟩]) none) = Except.ok vs) ∧
    (∃ vs, build_with_defaults
        [(⟨"a", ⟨false, false, true, false, true, none⟩, 0, 0, fun _ => 0⟩ :
            FieldModel Nat),
         ⟨"b", ⟨false, false, true, false, false, some DefaultValue.default⟩, 5, 0,
            fun _ => 0⟩]
        (List.replicate
          (List.length
            [(⟨"a", ⟨false, false, true, false, true, none⟩, 0, 0, fun _ => 0⟩ :
                FieldModel Nat),
             ⟨"b", ⟨false, false, true, false, false, some DefaultValue.default⟩, 5,
                0, fun _ => 0⟩]) none) = Except.ok vs) := by
  have h := claim_C2_all_defaulted_succeeds
    [(⟨"a", ⟨false, false, true, false, true, none⟩, 0, 0, fun _ => 0⟩ :
        FieldModel Nat),
     ⟨"b", ⟨false, false, true, false, false, some DefaultValue.default⟩, 5, 0,
        fun _ => 0⟩]
    (by decide) (by decide)
  exact ⟨by decide, by decide, h.1, h.2⟩

/-- C3: for every record whose per-field attributes arise from annotation
parsing, and for every builder state, `build()` and
`build_with_defaults()` apply the same resolved strategy to every field and
return equal results. -/
theorem claim_C3_build_equiv {α : Type} (fields : List (FieldModel α))
    (hinv : ∀ f ∈ fields, f.attrs.parsedInv = true)
    (state : List (Option α)) :
    build fields state = build_with_defaults fields state :=
  runBuild_congr strictStrategy defaultsStrategy _
    (fun p hp => strategy_eq_of_inv p.1.attrs
      (hinv p.1 (zip_mem_left fields state p hp)))

/-- C3 witness: an optional field with its slot filled; the two
finalization methods agree. -/
theorem claim_C3_witness :
    (∀ f ∈ [(⟨"a", ⟨false, false, true, false, true, none⟩, 0, 0, fun _ => 0⟩ :
        FieldModel Nat)], f.attrs.parsedInv = true) ∧
    build [(⟨"a", ⟨false, false, true, false, true, none⟩, 0, 0, fun _ => 0⟩ :
        FieldModel Nat)] [some 3] =
      build_with_defaults
        [(⟨"a", ⟨false, false, true, false, true, none⟩, 0, 0, fun _ => 0⟩ :
            FieldModel Nat)] [some 3] :=
  ⟨by decide, claim_C3_build_equiv
    [(⟨"a", ⟨false, false, true, false, true, none⟩, 0, 0, fun _ => 0⟩ :
        FieldModel Nat)] (by decide) [some 3]⟩

/-- C4 counterexample: the claim asserts that the bare `default` key leaves
all flags other than the default strategy unaffected; but a field annotated
with bare `default` alone ends up with `required = false`, not the initial
`required = true`. -/
theorem claim_C4_counterexample :
    (FieldAttributes.fromField "f" [] [Except.ok [MetaKey.defaultBare]]).required ≠
      true := by decide

/-- C4 amended: bare `default` sets `default_strategy = TraitDefault` and
also implicitly sets `required = false` (exactly like the expression form);
`default = "<expr>"` sets `default_strategy = Expression(text)` and
`required = false`; the getter, setter, participates and optional flags are
unaffected by both keys. -/
theorem claim_C4_default_keys (a : FieldAttributes) (t : String) :
    applyMetaKey a MetaKey.defaultBare =
      { a with default := some DefaultValue.default, required := false } ∧
    applyMetaKey a (MetaKey.defaultExpr t) =
      { a with default := some (DefaultValue.expression t), required := false } ∧
    FieldAttributes.fromField "f" [] [Except.ok [MetaKey.defaultBare]] =
      ⟨false, false, true, false, false, some DefaultValue.default⟩ ∧
    FieldAttributes.fromField "f" [] [Except.ok [MetaKey.defaultExpr t]] =
      ⟨false, false, true, false, false, some (DefaultValue.expression t)⟩ :=
  ⟨rfl, rfl, rfl, rfl⟩

/-- C5: a field annotated both `optional` and `default = "<expr>"` (in
either key order) resolves to the evaluate-the-expression-if-absent
strategy in both finalization methods, and when unset both methods fill it
with the expression's value. -/
theorem claim_C5_expression_wins {α : Type} (e nm : String) (dv nv : α)
    (ev : String → α) :
    strictStrategy (FieldAttributes.fromField nm []
        [Except.ok [MetaKey.optional, MetaKey.defaultExpr e]]) =
      Strategy.expression e ∧
    defaultsStrategy (FieldAttributes.fromField nm []
        [Except.ok [MetaKey.optional, MetaKey.defaultExpr e]]) =
      Strategy.expression e ∧
    strictStrategy (FieldAttributes.fromField nm []
        [Except.ok [MetaKey.defaultExpr e, MetaKey.optional]]) =
      Strategy.expression e ∧
    defaultsStrategy (FieldAttributes.fromField nm []
        [Except.ok [MetaKey.defaultExpr e, MetaKey.optional]]) =
      Strategy.expression e ∧
    build [⟨nm, FieldAttributes.fromField nm []
        [Except.ok [MetaKey.optional, MetaKey.defaultExpr e]], dv, nv, ev⟩]
        [none] = Except.ok [(nm, ev e)] ∧
    build_with_defaults [⟨nm, FieldAttributes.fromField nm []
        [Except.ok [MetaKey.optional, MetaKey.defaultExpr e]], dv, nv, ev⟩]
        [none] = Except.ok [(nm, ev e)] :=
  ⟨rfl, rfl, rfl, rfl, rfl, rfl⟩

/-- C6 counterexample: the claim asserts that no accessor methods are
generated for a `skip` field; but a field annotated `skip, getter` does get
a getter on the record type (accessor generation is independent of
participation). -/
theorem claim_C6_counterexample :
    Except.map Emission.getters
      (expand_builder [] (InputData.structNamed
        [⟨"f", [Except.ok [MetaKey.skip, MetaKey.getter]]⟩])) =
      Except.ok ["f"] := rfl

/-- C6 amended: for a non-participating (`skip`) field, `required` and
`default_strategy` are ignored: the field has no slot and no chainable
setter method on the builder, and both finalization methods always fill it
with the type's trait-default value regardless of the builder state; its
`getter_enabled`/`setter_enabled` flags, however, still take effect and
generate accessor methods on the record type. -/
theorem claim_C6_skip_field {α : Type} (g s r opt : Bool)
    (d : Option DefaultValue) (nm : String) (dv nv : α) (ev : String → α)
    (slot : Option α) :
    strictStrategy ⟨g, s, false, r, opt, d⟩ = Strategy.skipDefault ∧
    defaultsStrategy ⟨g, s, false, r, opt, d⟩ = Strategy.skipDefault ∧
    build [⟨nm, ⟨g, s, false, r, opt, d⟩, dv, nv, ev⟩] [slot] =
      Except.ok [(nm, dv)] ∧
    build_with_defaults [⟨nm, ⟨g, s, false, r, opt, d⟩, dv, nv, ev⟩] [slot] =
      Except.ok [(nm, dv)] ∧
    (emissionOf [(nm, ⟨g, s, false, r, opt, d⟩)]).builderSlots = [] ∧
    (emissionOf [(nm, ⟨g, s, false, r, opt, d⟩)]).builderMethods = [] ∧
    (emissionOf [(nm, ⟨g, s, false, r, opt, d⟩)]).getters =
      (if g = true then [nm] else []) ∧
    (emissionOf [(nm, ⟨g, s, false, r, opt, d⟩)]).setters =
      (if s = true then [nm] else []) := by
  refine ⟨rfl, rfl, rfl, rfl, rfl, rfl, ?_, ?_⟩
  · cases g <;> rfl
  · cases s <;> rfl

/-- C7: the struct-level merge is a logical OR over the getter/setter
capability flags — additive and monotone, never disabling a field-level
flag — and leaves participation, requiredness, the optional mark and the
default strategy unchanged; in particular a field marked `optional` at
field level and granted `getter` at struct level ends up optional,
getter-enabled and non-required. -/
theorem claim_C7_struct_merge_or (n : String) (a : FieldAttributes)
    (sas : List (Except Unit (List FieldConfig))) :
    (applyStructAttrs n sas a).getter = (a.getter || structGrantGetter n sas) ∧
    (applyStructAttrs n sas a).setter = (a.setter || structGrantSetter n sas) ∧
    (applyStructAttrs n sas a).builder = a.builder ∧
    (applyStructAttrs n sas a).required = a.required ∧
    (applyStructAttrs n sas a).optional = a.optional ∧
    (applyStructAttrs n sas a).default = a.default ∧
    (FieldAttributes.fromField "f" [Except.ok [⟨"f", true, false⟩]]
        [Except.ok [MetaKey.optional]]).optional = true ∧
    (FieldAttributes.fromField "f" [Except.ok [⟨"f", true, false⟩]]
        [Except.ok [MetaKey.optional]]).getter = true ∧
    (FieldAttributes.fromField "f" [Except.ok [⟨"f", true, false⟩]]
        [Except.ok [MetaKey.optional]]).required = false := by
  have h := applyStructAttrs_rest n sas a
  exact ⟨applyStructAttrs_getter n sas a, applyStructAttrs_setter n sas a,
    h.1, h.2.1, h.2.2.1, h.2.2.2, by decide, by decide, by decide⟩

/-- C8: a zero-field record still gets a field-less builder, and both
generated finalization methods trivially succeed, constructing the record
with no fields. -/
theorem claim_C8_zero_fields {α : Type}
    (sa : List (Except Unit (List FieldConfig))) :
    expand_builder sa (InputData.structNamed []) =
      Except.ok ⟨[], [], [], [], [], []⟩ ∧
    build ([] : List (FieldModel α)) [] = Except.ok [] ∧
    build_with_defaults ([] : List (FieldModel α)) [] = Except.ok [] :=
  ⟨rfl, rfl, rfl⟩

/-- C9 counterexample: the claim asserts that malformed annotation syntax
aborts the synthesis pass with an error and no emission; but a field whose
`#[builder(...)]` list fails to parse is silently ignored
(`let _ = attr.parse_nested_meta(...)`) and the pass emits the
backward-compatible required-field code for it. -/
theorem claim_C9_counterexample :
    expand_builder [] (InputData.structNamed [⟨"f", [Except.error ()]⟩]) =
      Except.ok ⟨["f"], ["f"], [("f", Strategy.require)],
        [("f", Strategy.require)], [], []⟩ := rfl

/-- C9 amended: malformed field-level and struct-level annotation lists are
silently skipped (the field keeps the attributes accumulated so far), the
synthesis pass always emits code for a named-field struct, and only
unsupported declaration shapes (unnamed/unit fields, non-struct items)
abort with a synthesis-time error. -/
theorem claim_C9_malformed_ignored (nm : String)
    (sas : List (Except Unit (List FieldConfig)))
    (fas : List (Except Unit (List MetaKey))) :
    FieldAttributes.fromField nm sas (Except.error () :: fas) =
      FieldAttributes.fromField nm sas fas ∧
    FieldAttributes.fromField nm (Except.error () :: sas) fas =
      FieldAttributes.fromField nm sas fas ∧
    (∀ fields, ∃ em,
      expand_builder sas (InputData.structNamed fields) = Except.ok em) ∧
    expand_builder sas InputData.structUnnamed =
      Except.error "Only named fields are supported" ∧
    expand_builder sas InputData.notStruct =
      Except.error "Only structs are supported" :=
  ⟨rfl, rfl, fun _ => ⟨_, rfl⟩, rfl, rfl⟩

/-- C10: on a named-field record with no builder annotations, the simple
proc-macro variant's `build()` and the richer variant's strict `build()`
agree: every field resolves to require-or-error, and the two builds return
equal results on every builder state (same first missing field, identical
records when all fields are set). -/
theorem claim_C10_variants_agree {α : Type} (fields : List (FieldModel α))
    (state : List (Option α))
    (hattr : ∀ f ∈ fields, f.attrs = FieldAttributes.fromField f.name [] []) :
    (∀ f ∈ fields, strictStrategy f.attrs = Strategy.require) ∧
    simpleBuild (fields.zip state) = build fields state := by
  have hreq : ∀ f ∈ fields, strictStrategy f.attrs = Strategy.require := by
    intro f hf
    rw [hattr f hf]
    rfl
  exact ⟨hreq, simpleBuild_eq_runBuild _
    (fun p hp => hreq p.1 (zip_mem_left fields state p hp))⟩

/-- C10 witness: one unannotated field, left absent; the two variants agree
(both report the field as missing). -/
theorem claim_C10_witness :
    (∀ f ∈ [(⟨"x", ⟨false, false, true, true, false, none⟩, 0, 0, fun _ => 0⟩ :
        FieldModel Nat)], f.attrs = FieldAttributes.fromField f.name [] []) ∧
    ((∀ f ∈ [(⟨"x", ⟨false, false, true, true, false, none⟩, 0, 0, fun _ => 0⟩ :
        FieldModel Nat)], strictStrategy f.attrs = Strategy.require) ∧
      simpleBuild
        ([(⟨"x", ⟨false, false, true, true, false, none⟩, 0, 0, fun _ => 0⟩ :
            FieldModel Nat)].zip [none]) =
        build [(⟨"x", ⟨false, false, true, true, false, none⟩, 0, 0, fun _ => 0⟩ :
            FieldModel Nat)] [none]) :=
  ⟨by decide, claim_C10_variants_agree
    [(⟨"x", ⟨false, false, true, true, false, none⟩, 0, 0, fun _ => 0⟩ :
        FieldModel Nat)] [none] (by decide)⟩

end ServiceBuilder
